import Mathlib

/- Verification development for the armis-mcp-test core.

   Shallow embedding of:
   - the tool-calling agent loop of src/llm.py (query_with_tools),
   - the run history store of src/history.py (save_run, update_run),
   - the MCP client deterministic query heuristic of src/mcp_client.py (query),
   - the prompt template engine of src/prompts.py (section extraction,
     variable substitution, tool extraction, parse_prompt, parse_content),
   - the legacy data-placeholder substitution of src/main.py and the fixed
     terminal result strings of src/app.py and src/main.py.

   External effects are modelled as explicit parameters: the Ollama chat
   backend is a function from the conversation to the assistant reply, the
   MCP tool transport is a function returning Except (error = raised
   exception), the file system is replaced by passing template bodies and
   run records directly, and clock/uuid values are parameters. -/

-- ===================== llm.py =====================

/-- One requested tool call inside an assistant message
    (tool_call["function"]["name"] and ["arguments"] in src/llm.py). -/
structure ToolCall where
  name : String
  args : List (String × String)
deriving DecidableEq

/-- A conversation message dict. `content` is optional, mirroring
    message.get("content", ...); `tool_calls` is the possibly empty list,
    mirroring message.get("tool_calls") being None or a list. -/
structure Msg where
  role : String
  content : Option String := none
  tool_calls : List ToolCall := []
deriving DecidableEq

/-- message.get("content", "") -/
def Msg.getContent (m : Msg) : String :=
  m.content.getD ""

/-- MAX_TOOL_ITERATIONS = 5 in src/llm.py. -/
def MAX_TOOL_ITERATIONS : Nat := 5

/-- The text appended for one tool call: the tool result on success, or the
    formatted error string f"Error calling tool: {e}" when client.call_tool
    raised (src/llm.py lines 81-87). -/
def toolResultText (callTool : String → List (String × String) → Except String String)
    (tc : ToolCall) : String :=
  match callTool tc.name tc.args with
  | Except.ok r => r
  | Except.error e => "Error calling tool: " ++ e

/-- The message appended per tool call: {"role": "tool", "content": result}. -/
def toolResultMsg (callTool : String → List (String × String) → Except String String)
    (tc : ToolCall) : Msg :=
  ⟨"tool", some (toolResultText callTool tc), []⟩

/-- messages[-1], as an Option (none for the empty list). -/
def lastMsg? : List Msg → Option Msg
  | [] => none
  | [m] => some m
  | _ :: rest => lastMsg? rest

/-- messages[-1].get("content", "") if messages else "" (src/llm.py line 95). -/
def lastContent (msgs : List Msg) : String :=
  ((lastMsg? msgs).map Msg.getContent).getD ""

/-- Result of one query_with_tools invocation, instrumented with the number
    of chat-backend invocations made and the final conversation transcript. -/
structure LoopOut where
  text : String
  calls : Nat
  transcript : List Msg
deriving DecidableEq

/-- The for-iteration-in-range(MAX_TOOL_ITERATIONS) loop of query_with_tools
    (src/llm.py lines 56-95). fuel is the number of remaining iterations;
    at fuel 0 the loop has ended and the truncation return runs. -/
def loopAux (chat : List Msg → Msg)
    (callTool : String → List (String × String) → Except String String) :
    Nat → List Msg → Nat → LoopOut
  | 0, msgs, calls => ⟨lastContent msgs, calls, msgs⟩
  | fuel+1, msgs, calls =>
    let a := chat msgs
    if a.tool_calls.isEmpty then
      ⟨a.getContent, calls + 1, msgs ++ [a]⟩
    else
      loopAux chat callTool fuel
        ((msgs ++ [a]) ++ a.tool_calls.map (toolResultMsg callTool)) (calls + 1)

/-- query_with_tools of src/llm.py: seeds the conversation with one system
    and one user message and runs the bounded tool-calling loop. -/
def query_with_tools (chat : List Msg → Msg)
    (callTool : String → List (String × String) → Except String String)
    (system_prompt user_prompt : String) : LoopOut :=
  loopAux chat callTool MAX_TOOL_ITERATIONS
    [{ role := "system", content := some system_prompt },
     { role := "user", content := some user_prompt }] 0

-- ===================== history.py =====================

/-- One run record file, fields as written by save_run (src/history.py). -/
structure RunRecord where
  id : String
  label : String
  prompt_id : Option String
  status : String
  result : Option String
  log : List String
  started_at : String
  finished_at : Option String
deriving DecidableEq

/-- The history directory: run id to record. -/
abbrev RunStore : Type := String → Option RunRecord

/-- The entry dict save_run writes (src/history.py lines 20-29); run_id and
    the timestamp are parameters (clock and uuid modelled as inputs). -/
def newRunEntry (label : String) (prompt_id : Option String)
    (run_id now : String) : RunRecord :=
  { id := run_id, label := label, prompt_id := prompt_id, status := "running",
    result := none, log := [], started_at := now, finished_at := none }

/-- save_run: writes a "running" entry to the store immediately. -/
def save_run (store : RunStore) (label : String) (prompt_id : Option String)
    (run_id now : String) : RunStore :=
  fun i => if i = run_id then some (newRunEntry label prompt_id run_id now) else store i

/-- The field merge performed by update_run on the loaded entry
    (src/history.py lines 38-43): status always set, result and log only
    when provided, finished_at always stamped. -/
def update_entry (entry : RunRecord) (status : String) (result : Option String)
    (log : Option (List String)) (now : String) : RunRecord :=
  { entry with
      status := status
      result := match result with
        | some r => some r
        | none => entry.result
      log := match log with
        | some l => l
        | none => entry.log
      finished_at := some now }

/-- update_run: read-modify-write of one record; none models the
    FileNotFoundError raised when the record file does not exist. -/
def update_run (store : RunStore) (run_id status : String) (result : Option String)
    (log : Option (List String)) (now : String) : Option RunStore :=
  (store run_id).map (fun entry =>
    fun i => if i = run_id then some (update_entry entry status result log now) else store i)

-- ===================== mcp_client.py =====================

/-- A tool input schema: the ordered property names of
    inputSchema["properties"] (values are irrelevant to the client). -/
structure ToolSchema where
  properties : List String
deriving DecidableEq

/-- An MCP tool descriptor as used by ArmisMCPClient.query. -/
structure MCPTool where
  name : String
  description : Option String
  inputSchema : Option ToolSchema
deriving DecidableEq

/-- The candidate parameter names checked in order (src/mcp_client.py line 128). -/
def candidateParams : List String :=
  ["query", "prompt", "question", "input", "text", "message"]

/-- The properties dict: (tool.inputSchema or {}).get("properties", {}). -/
def toolProperties (tool : MCPTool) : List String :=
  ((tool.inputSchema).map ToolSchema.properties).getD []

/-- The parameter-name selection of ArmisMCPClient.query
    (src/mcp_client.py lines 127-139): first candidate present, else the
    first declared property, else the literal "query". -/
def pickParamName (properties : List String) : String :=
  match candidateParams.find? (fun c => properties.contains c) with
  | some c => c
  | none =>
    match properties with
    | p :: _ => p
    | [] => "query"

/-- ArmisMCPClient.query (src/mcp_client.py lines 107-166): raises
    RuntimeError (modelled as Except.error) when no tools are available;
    otherwise calls the first tool with the single chosen argument field. -/
def clientQuery (callTool : String → List (String × String) → String)
    (tools : List MCPTool) (query_text : String) : Except String String :=
  match tools with
  | [] => Except.error "No tools available on MCP server"
  | tool :: _ =>
    Except.ok (callTool tool.name [(pickParamName (toolProperties tool), query_text)])

-- ===================== app.py / main.py terminal result strings =====================

/-- The result recorded on a failed run (src/app.py lines 212 and 336). -/
def failed_result (e : String) : String :=
  "**Run failed:** " ++ e

/-- The result recorded on a cancelled run (src/app.py lines 216 and 340). -/
def cancelled_result : String :=
  "**Run cancelled** — interrupted."

/-- The result returned when the prompt id is unknown (src/main.py line 48). -/
def prompt_not_found_result (prompt_id : String) : String :=
  "Error: Prompt '" ++ prompt_id ++ "' not found"

-- ===================== python string helpers =====================

/-- The left brace character, written via its code point so that template
    placeholder syntax never appears literally in this file. -/
def lbrace : Char := Char.ofNat 123

/-- The right brace character. -/
def rbrace : Char := Char.ofNat 125

/-- The backtick character. -/
def btick : Char := Char.ofNat 96

/-- Python str whitespace (ASCII): the characters stripped by str.strip()
    and matched by the regex class backslash-s. -/
def isPySpace (c : Char) : Bool :=
  c == ' ' || c == '\t' || c == '\n' || c == '\r' || c == '\x0b' || c == '\x0c'

/-- pat is a prefix of s (character lists). -/
def beginsWith : List Char → List Char → Bool
  | [], _ => true
  | _ :: _, [] => false
  | a :: as, b :: bs => a == b && beginsWith as bs

/-- Python `pat in s` substring containment on character lists. -/
def occursList (pat : List Char) : List Char → Bool
  | [] => pat.isEmpty
  | c :: rest => beginsWith pat (c :: rest) || occursList pat rest

/-- Python s.split("\n") on character lists: splits at every newline,
    keeping empty pieces; the empty string yields one empty piece. -/
def splitNl : List Char → List (List Char)
  | [] => [[]]
  | c :: rest =>
    if c = '\n' then [] :: splitNl rest
    else
      match splitNl rest with
      | l :: ls => (c :: l) :: ls
      | [] => [[c]]

/-- Python s.strip(). -/
def pyStripL (s : List Char) : List Char :=
  ((s.dropWhile isPySpace).reverse.dropWhile isPySpace).reverse

/-- Python s.lower() (ASCII). -/
def pyLowerL (s : List Char) : List Char :=
  s.map Char.toLower

/-- Python s.replace(pat, repl) for a non-empty pat: leftmost, non-overlapping,
    single left-to-right pass. fuel bounds the recursion (always called with
    fuel = length of the scanned list, which suffices since every step
    consumes at least one character). -/
def replaceAllF (pat repl : List Char) : Nat → List Char → List Char
  | 0, s => s
  | _+1, [] => []
  | fuel+1, c :: rest =>
    if !pat.isEmpty && beginsWith pat (c :: rest) then
      repl ++ replaceAllF pat repl fuel (rest.drop (pat.length - 1))
    else
      c :: replaceAllF pat repl fuel rest

/-- Python s.replace(pat, repl) on strings. -/
def pyReplace (s pat repl : String) : String :=
  ⟨replaceAllF pat.data repl.data s.data.length s.data⟩

/-- String wrappers. -/
def splitLinesStr (s : String) : List String :=
  (splitNl s.data).map String.mk

def pyStripStr (s : String) : String :=
  ⟨pyStripL s.data⟩

def pyLowerStr (s : String) : String :=
  ⟨pyLowerL s.data⟩

/-- Python `needle in hay` on strings. -/
def containsStr (needle hay : String) : Bool :=
  occursList needle.data hay.data

/-- "\n".join-style rejoin of split lines. -/
def intercalateNl : List String → String
  | [] => ""
  | [l] => l
  | l :: rest => l ++ "\n" ++ intercalateNl rest

/-- s contains neither brace character. -/
def braceFreeL (s : List Char) : Bool :=
  s.all (fun c => !(c == lbrace) && !(c == rbrace))

/-- The template placeholder for name k: two left braces, k, two right braces
    (the f-string f"{{{{{key}}}}}" of src/prompts.py line 188). -/
def placeholderL (k : String) : List Char :=
  lbrace :: lbrace :: (k.data ++ [rbrace, rbrace])

def placeholderStr (k : String) : String :=
  ⟨placeholderL k⟩

-- ===================== prompts.py: section extraction =====================

/- _extract_section uses the regex
     ^## <name>\s*\n(.*?)(?=\n## |\Z)
   with MULTILINE and DOTALL, then strips the group; the analysis split uses
     ^## Analysis Prompt\s*\n(.*)
   likewise stripped. The embedding below is the line-level reading of those
   regexes: a header matches at a line whose text is "## <name>" followed
   only by whitespace, provided a newline follows the line (the pattern
   requires a literal newline, so a header on the final unterminated line
   never matches); the greedy-backslash-s-star-then-newline prefix places
   the group start after the last newline of the whitespace run, i.e. at the
   first following line containing a non-whitespace character; the group
   runs to the first "\n## " occurrence (or to the end), and is stripped.
   Leading whitespace-only lines skipped here differ from the exact group
   start only by whitespace removed by the final strip. -/

/-- The line text "## <name>" possibly padded with trailing whitespace. -/
def headerLineMatches (name : String) (line : String) : Bool :=
  beginsWith ("## " ++ name).data line.data
    && ((line.data).drop ("## " ++ name).length).all isPySpace

/-- Scan the lines for the first header match; a header needs a following
    newline, so the final line never matches. Returns the following lines. -/
def sectionLinesAfter (name : String) : List String → Option (List String)
  | [] => none
  | line :: rest =>
    match rest with
    | [] => none
    | _ :: _ =>
      if headerLineMatches name line then some rest
      else sectionLinesAfter name rest

/-- A line consisting only of whitespace (including the empty line). -/
def allWsLine (l : String) : Bool :=
  l.data.all isPySpace

/-- The group text after a matched header: whitespace-only lines belong to
    the consumed whitespace run, the rest is rejoined. -/
def groupText (rest : List String) : String :=
  intercalateNl (rest.dropWhile allWsLine)

/-- The lazy group stops at the first "\n## " (the (?=\n## |\Z) lookahead). -/
def takeGroupL : List Char → List Char
  | [] => []
  | c :: rest =>
    if beginsWith ('\n' :: '#' :: '#' :: ' ' :: []) (c :: rest) then []
    else c :: takeGroupL rest

/-- _extract_section of src/prompts.py lines 98-107. -/
def extractSection (content : String) (name : String) : Option String :=
  (sectionLinesAfter name (splitLinesStr content)).map
    (fun rest => pyStripStr ⟨takeGroupL (groupText rest).data⟩)

/-- The "## Analysis Prompt" split of src/prompts.py line 194: same header
    match, group runs greedily to the end of the text, stripped. -/
def analysisFrom (content : String) : Option String :=
  (sectionLinesAfter "Analysis Prompt" (splitLinesStr content)).map
    (fun rest => pyStripStr (groupText rest))

-- ===================== prompts.py: tools =====================

/-- The none-indicator test of src/prompts.py line 158, applied to the
    already stripped and lowered line. -/
def isNoneIndicator (line : String) : Bool :=
  line == "none" || line == "none." || line == "n/a" || line == "-"
    || containsStr "no tools" line || containsStr "llm-only" line

/-- Python \w (ASCII reading). -/
def isWordChar (c : Char) : Bool :=
  c.isAlphanum || c == '_'

/-- The tool-identifier regex match of src/prompts.py line 161:
    re.match(r"-\s*`?(\w[\w-]*)`?", line) applied to the lowered line;
    returns the captured group. -/
def parseToolLine (l : List Char) : Option String :=
  match l with
  | [] => none
  | c :: rest =>
    if c = '-' then
      let r1 := rest.dropWhile isPySpace
      let r2 :=
        match r1 with
        | c' :: rest' => if c' = btick then rest' else r1
        | [] => r1
      match r2 with
      | [] => none
      | c2 :: cs =>
        if isWordChar c2 then
          some ⟨c2 :: cs.takeWhile (fun d => isWordChar d || d == '-')⟩
        else none
    else none

/-- The line loop shared by extract_tools (src/prompts.py lines 154-165,
    where the indicator line does `return []`) and parse_content (lines
    232-239, where it does `tools = []` then `break`): both discard any
    accumulated tools and yield the empty list. -/
def toolsLoop (acc : List String) : List String → List String
  | [] => acc
  | rawLine :: rest =>
    let line := pyLowerStr (pyStripStr rawLine)
    if isNoneIndicator line then []
    else
      match parseToolLine line.data with
      | some t => toolsLoop (acc ++ [t]) rest
      | none => toolsLoop acc rest

/-- extract_tools of src/prompts.py lines 139-165, at the level of the
    already loaded template body (file loading is out of scope). The
    `if not tools_section` truthiness check treats both a missing section
    and an empty stripped section as empty. -/
def extract_tools (template : String) : List String :=
  match extractSection template "Tools" with
  | none => []
  | some s => if s = "" then [] else toolsLoop [] (splitLinesStr s)

-- ===================== prompts.py: substitution and parsing =====================

/-- The variable substitution loop of src/prompts.py lines 187-188:
    sequential str.replace in the map's iteration order. -/
def substituteVars (template : String) (vars : List (String × String)) : String :=
  vars.foldl (fun t kv => pyReplace t (placeholderStr kv.1) kv.2) template

/-- The parsed prompt dataclass of src/prompts.py lines 32-38. -/
structure ParsedPrompt where
  tools : List String
  mcp_query : Option String
  analysis_prompt : String
  full_content : String
deriving DecidableEq

/-- parse_prompt of src/prompts.py lines 168-206, at the level of the loaded
    template body (the prompt_id file lookup is out of scope; a missing
    template returns None before any of this runs). Tools are extracted from
    the unsubstituted template; variables are then substituted; the MCP
    query and analysis sections come from the substituted text, the analysis
    falling back to the whole substituted template. -/
def parse_prompt (template : String) (vars : List (String × String)) : ParsedPrompt :=
  { tools := extract_tools template
    mcp_query := extractSection (substituteVars template vars) "MCP Query"
    analysis_prompt :=
      match analysisFrom (substituteVars template vars) with
      | some a => a
      | none => substituteVars template vars
    full_content := substituteVars template vars }

/-- parse_content of src/prompts.py lines 227-254: same extraction applied
    to raw content, without variable substitution. -/
def parse_content (content : String) : ParsedPrompt :=
  { tools :=
      match extractSection content "Tools" with
      | none => []
      | some s => if s = "" then [] else toolsLoop [] (splitLinesStr s)
    mcp_query := extractSection content "MCP Query"
    analysis_prompt :=
      match analysisFrom content with
      | some a => a
      | none => content
    full_content := content }

/-- Whether the text has a "## <name>" section header in the sense of the
    _extract_section regex: a non-final line that is "## <name>" padded only
    by whitespace (the final line cannot match, the pattern needs a newline). -/
def hasSecHeader (name content : String) : Bool :=
  (splitLinesStr content).dropLast.any (fun l => headerLineMatches name l)

-- ===================== main.py: legacy data placeholders =====================

/-- The placeholder list of src/main.py line 87. -/
def legacyPlaceholders : List String :=
  ["device_data", "data", "mcp_data", "result"]

/-- The fetch-substitution step of src/main.py lines 86-90 (and lines
    138-142): replace every occurrence of each legacy placeholder token in
    the analysis prompt with the fetched MCP data. -/
def substituteDataPlaceholders (analysis_prompt mcp_data : String) : String :=
  legacyPlaceholders.foldl (fun t p => pyReplace t (placeholderStr p) mcp_data) analysis_prompt

-- ===================== concrete instances used by witnesses =====================

/-- A scripted backend whose every reply requests one tool call. -/
def chatAlwaysTool : List Msg → Msg :=
  fun _ => { role := "assistant", content := some "calling tool",
             tool_calls := [⟨"armis_query", [("query", "q")]⟩] }

/-- A scripted backend that answers directly with non-empty text. -/
def chatNoTool : List Msg → Msg :=
  fun _ => { role := "assistant", content := some "done", tool_calls := [] }

/-- A scripted backend that answers directly with empty text. -/
def chatEmptyReply : List Msg → Msg :=
  fun _ => { role := "assistant", content := some "", tool_calls := [] }

/-- A tool transport that always succeeds with non-empty text. -/
def callToolOk : String → List (String × String) → Except String String :=
  fun _ _ => Except.ok "tool result"

/-- A tool transport that always raises. -/
def callToolFail : String → List (String × String) → Except String String :=
  fun _ _ => Except.error "connection lost"

/-- A string-level tool call recording which tool and argument field were
    used, for observing clientQuery. -/
def callToolEcho : String → List (String × String) → String :=
  fun n args => n ++ "/" ++ String.intercalate "," (args.map Prod.fst)

/-- A tool whose schema declares the fields foo then question, in that order. -/
def toolFooQuestion : MCPTool :=
  { name := "ask_armis", description := some "ask",
    inputSchema := some ⟨["foo", "question"]⟩ }

/-- The concrete scenario template body of the spec (section 8), built with
    placeholderStr so that brace characters never appear literally. -/
def scenarioTemplate : String :=
  "## Variables\n- `mac`: MAC\n## MCP Query\nfind " ++ placeholderStr "mac"
    ++ "\n## Analysis Prompt\nSummarize: " ++ placeholderStr "result"

/-- A Tools section holding identifier lines around a "none" line. -/
def toolsNoneTemplate : String :=
  "## Tools\n- armis-mcp\nnone\n- other"

/-- An analysis text containing each legacy placeholder once and one twice. -/
def multiPlaceholderText : String :=
  "A " ++ placeholderStr "device_data" ++ " B " ++ placeholderStr "data"
    ++ " C " ++ placeholderStr "mcp_data" ++ " D " ++ placeholderStr "result"
    ++ " E " ++ placeholderStr "data"

-- ===================== basic lemmas =====================

theorem stringMkData (s : String) : String.mk s.data = s := by
  cases s
  rfl

theorem stringDataAppend (a b : String) : (a ++ b).data = a.data ++ b.data := by
  cases a
  cases b
  rfl

theorem listIsEmptyFalse {α : Type} (l : List α) (h : l ≠ []) : l.isEmpty = false := by
  cases l with
  | nil => exact absurd rfl h
  | cons a as => rfl

theorem lastMsgCons (a : Msg) (l : List Msg) (h : l ≠ []) :
    lastMsg? (a :: l) = lastMsg? l := by
  cases l with
  | nil => exact absurd rfl h
  | cons b bs => rfl

theorem lastMsgAppend (l1 l2 : List Msg) (h : l2 ≠ []) :
    lastMsg? (l1 ++ l2) = lastMsg? l2 := by
  induction l1 with
  | nil => rfl
  | cons a l1 ih =>
    have hne : l1 ++ l2 ≠ [] := by
      intro hx
      rcases List.append_eq_nil.mp hx with ⟨_, h2⟩
      exact h h2
    rw [List.cons_append, lastMsgCons a (l1 ++ l2) hne, ih]

theorem lastMsgSome (l : List Msg) (h : l ≠ []) : ∃ m, lastMsg? l = some m := by
  induction l with
  | nil => exact absurd rfl h
  | cons a l ih =>
    cases l with
    | nil => exact ⟨a, rfl⟩
    | cons b bs =>
      rcases ih (by simp) with ⟨m, hm⟩
      exact ⟨m, by rw [lastMsgCons a (b :: bs) (by simp), hm]⟩

theorem stringAppendNe (a b : String) (h : a.data ≠ []) : a ++ b ≠ "" := by
  intro hx
  have hd := congrArg String.data hx
  rw [stringDataAppend] at hd
  rcases List.append_eq_nil.mp hd with ⟨h1, _⟩
  exact h h1

theorem lastMsgMapSome (f : ToolCall → Msg) (l : List ToolCall) (h : l ≠ []) :
    ∃ tc, lastMsg? (l.map f) = some (f tc) := by
  induction l with
  | nil => exact absurd rfl h
  | cons a l ih =>
    cases l with
    | nil => exact ⟨a, rfl⟩
    | cons b bs =>
      rcases ih (by simp) with ⟨tc, htc⟩
      refine ⟨tc, ?_⟩
      rw [List.map_cons, lastMsgCons _ _ (by simp), htc]

-- ===================== agent loop lemmas =====================

theorem loopAllToolCalls (chat : List Msg → Msg)
    (ct : String → List (String × String) → Except String String)
    (h : ∀ m, (chat m).tool_calls ≠ []) :
    ∀ (fuel : Nat) (msgs : List Msg) (calls : Nat), msgs ≠ [] →
      (loopAux chat ct fuel msgs calls).calls = calls + fuel
      ∧ (loopAux chat ct fuel msgs calls).transcript ≠ []
      ∧ (loopAux chat ct fuel msgs calls).text
          = lastContent (loopAux chat ct fuel msgs calls).transcript := by
  intro fuel
  induction fuel with
  | zero =>
    intro msgs calls hm
    exact ⟨rfl, hm, rfl⟩
  | succ fuel ih =>
    intro msgs calls hm
    have hie := listIsEmptyFalse _ (h msgs)
    have hrec := ih ((msgs ++ [chat msgs]) ++ (chat msgs).tool_calls.map (toolResultMsg ct))
      (calls + 1) (by simp)
    simp only [loopAux, hie, Bool.false_eq_true, if_false]
    exact ⟨by rw [hrec.1]; omega, hrec.2.1, hrec.2.2⟩

theorem loopNonEmptyText (chat : List Msg → Msg)
    (ct : String → List (String × String) → Except String String)
    (hchat : ∀ m, Msg.getContent (chat m) ≠ "")
    (hct : ∀ n a r, ct n a = Except.ok r → r ≠ "") :
    ∀ (fuel : Nat) (msgs : List Msg) (calls : Nat),
      (fuel ≠ 0 ∨ lastContent msgs ≠ "") →
      (loopAux chat ct fuel msgs calls).text ≠ "" := by
  intro fuel
  induction fuel with
  | zero =>
    intro msgs calls hd
    rcases hd with h0 | hlast
    · exact absurd rfl h0
    · exact hlast
  | succ fuel ih =>
    intro msgs calls _
    by_cases hemp : (chat msgs).tool_calls.isEmpty = true
    · simp only [loopAux, hemp, if_true]
      exact hchat msgs
    · have hie : (chat msgs).tool_calls.isEmpty = false := by
        cases hb : (chat msgs).tool_calls.isEmpty
        · rfl
        · exact absurd hb hemp
      have htc : (chat msgs).tool_calls ≠ [] := by
        intro hx
        rw [hx] at hie
        simp [List.isEmpty] at hie
      simp only [loopAux, hie, Bool.false_eq_true, if_false]
      apply ih
      right
      rcases lastMsgMapSome (toolResultMsg ct) _ htc with ⟨tcl, htcl⟩
      rw [lastContent, lastMsgAppend _ _ (by
        intro hx
        exact htc (List.map_eq_nil_iff.mp hx)), htcl]
      simp only [Option.map_some', Option.getD_some]
      show Msg.getContent (toolResultMsg ct tcl) ≠ ""
      show toolResultText ct tcl ≠ ""
      unfold toolResultText
      cases hc : ct tcl.name tcl.args with
      | ok r => exact hct _ _ _ hc
      | error e => exact stringAppendNe "Error calling tool: " e (by decide)

-- ===================== claim theorems: agent loop and store =====================

/-- Claim C1: for every scripted chat backend whose every reply contains at
    least one tool-call request, query_with_tools makes exactly
    MAX_TOOL_ITERATIONS = 5 backend invocations and returns the text content
    of the last message of the conversation (a total String, never null). -/
theorem claim_C1 (chat : List Msg → Msg)
    (ct : String → List (String × String) → Except String String)
    (system_prompt user_prompt : String)
    (h : ∀ m, (chat m).tool_calls ≠ []) :
    (query_with_tools chat ct system_prompt user_prompt).calls = MAX_TOOL_ITERATIONS
    ∧ MAX_TOOL_ITERATIONS = 5
    ∧ ∃ m, lastMsg? (query_with_tools chat ct system_prompt user_prompt).transcript = some m
        ∧ (query_with_tools chat ct system_prompt user_prompt).text = m.getContent := by
  have haux := loopAllToolCalls chat ct h MAX_TOOL_ITERATIONS
    [{ role := "system", content := some system_prompt },
     { role := "user", content := some user_prompt }] 0 (by simp)
  refine ⟨?_, rfl, ?_⟩
  · show (loopAux chat ct MAX_TOOL_ITERATIONS _ 0).calls = MAX_TOOL_ITERATIONS
    rw [haux.1, Nat.zero_add]
  · rcases lastMsgSome _ haux.2.1 with ⟨m, hm⟩
    refine ⟨m, hm, ?_⟩
    show (loopAux chat ct MAX_TOOL_ITERATIONS _ 0).text = m.getContent
    rw [haux.2.2, lastContent, hm]
    rfl

/-- Witness for claim C1 at a concrete scripted backend. -/
theorem claim_C1_witness :
    (query_with_tools chatAlwaysTool callToolOk "sys" "ask").calls = MAX_TOOL_ITERATIONS
    ∧ MAX_TOOL_ITERATIONS = 5
    ∧ ∃ m, lastMsg? (query_with_tools chatAlwaysTool callToolOk "sys" "ask").transcript = some m
        ∧ (query_with_tools chatAlwaysTool callToolOk "sys" "ask").text = m.getContent :=
  claim_C1 chatAlwaysTool callToolOk "sys" "ask" (fun m => by simp [chatAlwaysTool])

/-- Claim C7: when the model turn requests tool calls, the loop appends one
    tool-result message per requested call, in the order the model emitted
    them, a failed call contributing the formatted error string instead of
    raising, and the loop then continues with the next iteration (the step
    equation holds for any tool transport, including an always-failing one,
    so no failure aborts the loop; query_with_tools is a total function, so
    no exception escapes it). -/
theorem claim_C7 (chat : List Msg → Msg)
    (ct : String → List (String × String) → Except String String)
    (fuel : Nat) (msgs : List Msg) (calls : Nat)
    (h : (chat msgs).tool_calls ≠ []) :
    loopAux chat ct (fuel + 1) msgs calls
      = loopAux chat ct fuel
          ((msgs ++ [chat msgs]) ++ (chat msgs).tool_calls.map (toolResultMsg ct)) (calls + 1)
    ∧ ((chat msgs).tool_calls.map (toolResultMsg ct)).length = (chat msgs).tool_calls.length
    ∧ (∀ tc e, ct tc.name tc.args = Except.error e →
        toolResultMsg ct tc = ⟨"tool", some ("Error calling tool: " ++ e), []⟩)
    ∧ (∀ tc r, ct tc.name tc.args = Except.ok r →
        toolResultMsg ct tc = ⟨"tool", some r, []⟩) := by
  refine ⟨?_, by simp, ?_, ?_⟩
  · simp only [loopAux, listIsEmptyFalse _ h, Bool.false_eq_true, if_false]
  · intro tc e he
    simp [toolResultMsg, toolResultText, he]
  · intro tc r hr
    simp [toolResultMsg, toolResultText, hr]

/-- Witness for claim C7: a failing transport turns into a formatted
    error tool message at a concrete loop state. -/
theorem claim_C7_witness :
    toolResultMsg callToolFail ⟨"armis_query", [("query", "q")]⟩
      = ⟨"tool", some ("Error calling tool: " ++ "connection lost"), []⟩ :=
  (claim_C7 chatAlwaysTool callToolFail 2 [{ role := "user", content := some "q" }] 0
    (by simp [chatAlwaysTool])).2.2.1 ⟨"armis_query", [("query", "q")]⟩ "connection lost" rfl

/-- Claim C8 counterexample: a backend reply with empty content and no tool
    calls makes query_with_tools return the empty string, so not every
    terminal outcome yields a non-empty result. -/
theorem claim_C8_counterexample :
    (query_with_tools chatEmptyReply callToolOk "sys" "ask").text = "" := by
  decide

/-- Claim C8 as amended: the failure, cancellation and prompt-not-found
    results are fixed non-empty strings, and the text returned by
    query_with_tools is non-empty provided every backend reply has non-empty
    content and every successful tool result is non-empty (error results are
    always non-empty by the fixed prefix). -/
theorem claim_C8_amended (chat : List Msg → Msg)
    (ct : String → List (String × String) → Except String String)
    (system_prompt user_prompt : String)
    (hchat : ∀ m, Msg.getContent (chat m) ≠ "")
    (hct : ∀ n a r, ct n a = Except.ok r → r ≠ "") :
    (query_with_tools chat ct system_prompt user_prompt).text ≠ ""
    ∧ (∀ e, failed_result e ≠ "")
    ∧ cancelled_result ≠ ""
    ∧ (∀ p, prompt_not_found_result p ≠ "") := by
  refine ⟨?_, ?_, by decide, ?_⟩
  · exact loopNonEmptyText chat ct hchat hct MAX_TOOL_ITERATIONS _ 0 (Or.inl (by decide))
  · intro e
    exact stringAppendNe _ _ (by decide)
  · intro p
    apply stringAppendNe
    rw [stringDataAppend]
    intro hx
    rcases List.append_eq_nil.mp hx with ⟨h1, _⟩
    have hne : "Error: Prompt '".data ≠ [] := by decide
    exact hne h1

/-- Witness for the amended claim C8 at a concrete backend and transport. -/
theorem claim_C8_amended_witness :
    (query_with_tools chatNoTool callToolOk "sys" "ask").text ≠ ""
    ∧ (∀ e, failed_result e ≠ "")
    ∧ cancelled_result ≠ ""
    ∧ (∀ p, prompt_not_found_result p ≠ "") :=
  claim_C8_amended chatNoTool callToolOk "sys" "ask"
    (fun _ => by
      show ("done" : String) ≠ ""
      decide)
    (fun n a r h => by
      have hr : r = "tool result" := (Except.ok.inj h).symm
      rw [hr]
      decide)

/-- Claim C2: save_run immediately writes a record with status "running",
    null result and null finished_at; a following update_run to "complete"
    with a result and no log yields status "complete", the given result, a
    stamped finished_at and an unchanged log; and update_entry changes only
    the provided fields in general. -/
theorem claim_C2 (store : RunStore) (label : String) (pid : Option String)
    (rid t1 t2 r : String) :
    (save_run store label pid rid t1) rid = some (newRunEntry label pid rid t1)
    ∧ (newRunEntry label pid rid t1).status = "running"
    ∧ (newRunEntry label pid rid t1).result = none
    ∧ (newRunEntry label pid rid t1).finished_at = none
    ∧ (update_run (save_run store label pid rid t1) rid "complete" (some r) none t2).bind
        (fun s => s rid)
        = some (update_entry (newRunEntry label pid rid t1) "complete" (some r) none t2)
    ∧ (update_entry (newRunEntry label pid rid t1) "complete" (some r) none t2).status = "complete"
    ∧ (update_entry (newRunEntry label pid rid t1) "complete" (some r) none t2).result = some r
    ∧ (update_entry (newRunEntry label pid rid t1) "complete" (some r) none t2).finished_at = some t2
    ∧ (update_entry (newRunEntry label pid rid t1) "complete" (some r) none t2).log
        = (newRunEntry label pid rid t1).log
    ∧ (∀ (e : RunRecord) (st t : String) (res : Option String),
        (update_entry e st res none t).status = st
        ∧ (update_entry e st res none t).log = e.log
        ∧ (update_entry e st none none t).result = e.result
        ∧ (update_entry e st res none t).finished_at = some t
        ∧ (update_entry e st res none t).label = e.label
        ∧ (update_entry e st res none t).prompt_id = e.prompt_id
        ∧ (update_entry e st res none t).started_at = e.started_at
        ∧ (update_entry e st res none t).id = e.id) := by
  refine ⟨?_, rfl, rfl, rfl, ?_, rfl, rfl, rfl, rfl, ?_⟩
  · simp [save_run]
  · simp [update_run, save_run]
  · intro e st t res
    exact ⟨rfl, rfl, rfl, rfl, rfl, rfl, rfl, rfl⟩

/-- Claim C10: the declared tools of a parsed prompt are independent of the
    supplied variable values, because extraction happens on the
    unsubstituted template. -/
theorem claim_C10 (template : String) (v1 v2 : List (String × String)) :
    (parse_prompt template v1).tools = (parse_prompt template v2).tools
    ∧ (parse_prompt template v1).tools = extract_tools template :=
  ⟨rfl, rfl⟩

/-- Claim C3: clientQuery always calls the first tool in listing order with
    the single argument field chosen by pickParamName; pickParamName checks
    the candidate names in the fixed priority order (so the schema with
    fields foo then question selects question), falls back to the first
    declared field, and finally to the literal "query"; an empty tool list
    yields the "no tools available" error. -/
theorem claim_C3 (callTool : String → List (String × String) → String)
    (query_text : String) :
    (∀ (tool : MCPTool) (rest : List MCPTool),
        clientQuery callTool (tool :: rest) query_text
          = Except.ok (callTool tool.name [(pickParamName (toolProperties tool), query_text)]))
    ∧ pickParamName (toolProperties toolFooQuestion) = "question"
    ∧ (∀ (props : List String) (i : Nat) (c : String),
        candidateParams.get? i = some c → props.contains c = true →
        (∀ j c', j < i → candidateParams.get? j = some c' → props.contains c' = false) →
        pickParamName props = c)
    ∧ (∀ (p : String) (ps : List String),
        (∀ c ∈ candidateParams, (p :: ps).contains c = false) →
        pickParamName (p :: ps) = p)
    ∧ pickParamName [] = "query"
    ∧ clientQuery callTool [] query_text = Except.error "No tools available on MCP server" := by
  refine ⟨fun tool rest => rfl, by decide, ?_, ?_, by decide, rfl⟩
  · intro props i c hic hmem hprev
    have hi : i < 6 := by
      by_contra hge
      rw [List.get?_eq_none.mpr (by simpa [candidateParams] using Nat.le_of_not_lt hge)] at hic
      exact Option.noConfusion hic
    interval_cases i
    · simp only [candidateParams, List.get?] at hic
      cases hic
      simp at hmem
      simp [pickParamName, candidateParams, List.find?, hmem]
    · have h0 := hprev 0 "query" (by omega) rfl
      simp only [candidateParams, List.get?] at hic
      cases hic
      simp at hmem h0
      simp [pickParamName, candidateParams, List.find?, hmem, h0]
    · have h0 := hprev 0 "query" (by omega) rfl
      have h1 := hprev 1 "prompt" (by omega) rfl
      simp only [candidateParams, List.get?] at hic
      cases hic
      simp at hmem h0 h1
      simp [pickParamName, candidateParams, List.find?, hmem, h0, h1]
    · have h0 := hprev 0 "query" (by omega) rfl
      have h1 := hprev 1 "prompt" (by omega) rfl
      have h2 := hprev 2 "question" (by omega) rfl
      simp only [candidateParams, List.get?] at hic
      cases hic
      simp at hmem h0 h1 h2
      simp [pickParamName, candidateParams, List.find?, hmem, h0, h1, h2]
    · have h0 := hprev 0 "query" (by omega) rfl
      have h1 := hprev 1 "prompt" (by omega) rfl
      have h2 := hprev 2 "question" (by omega) rfl
      have h3 := hprev 3 "input" (by omega) rfl
      simp only [candidateParams, List.get?] at hic
      cases hic
      simp at hmem h0 h1 h2 h3
      simp [pickParamName, candidateParams, List.find?, hmem, h0, h1, h2, h3]
    · have h0 := hprev 0 "query" (by omega) rfl
      have h1 := hprev 1 "prompt" (by omega) rfl
      have h2 := hprev 2 "question" (by omega) rfl
      have h3 := hprev 3 "input" (by omega) rfl
      have h4 := hprev 4 "text" (by omega) rfl
      simp only [candidateParams, List.get?] at hic
      cases hic
      simp at hmem h0 h1 h2 h3 h4
      simp [pickParamName, candidateParams, List.find?, hmem, h0, h1, h2, h3, h4]
  · intro p ps hnc
    have h0 := hnc "query" (by simp [candidateParams])
    have h1 := hnc "prompt" (by simp [candidateParams])
    have h2 := hnc "question" (by simp [candidateParams])
    have h3 := hnc "input" (by simp [candidateParams])
    have h4 := hnc "text" (by simp [candidateParams])
    have h5 := hnc "message" (by simp [candidateParams])
    simp at h0 h1 h2 h3 h4 h5
    simp [pickParamName, candidateParams, List.find?, h0, h1, h2, h3, h4, h5]

/-- Witness for claim C3 at a concrete tool whose schema declares foo then
    question. -/
theorem claim_C3_witness :
    clientQuery callToolEcho [toolFooQuestion] "what"
        = Except.ok (callToolEcho toolFooQuestion.name
            [(pickParamName (toolProperties toolFooQuestion), "what")])
    ∧ pickParamName (toolProperties toolFooQuestion) = "question"
    ∧ pickParamName ["foo", "question"] = "question"
    ∧ pickParamName [] = "query"
    ∧ clientQuery callToolEcho [] "what" = Except.error "No tools available on MCP server" :=
  have h := claim_C3 callToolEcho "what"
  ⟨h.1 toolFooQuestion [], h.2.1,
    h.2.2.1 ["foo", "question"] 2 "question" rfl (by decide)
      (fun j c' hj hjc => by
        interval_cases j
        · simp only [candidateParams, List.get?] at hjc
          cases hjc
          decide
        · simp only [candidateParams, List.get?] at hjc
          cases hjc
          decide),
    h.2.2.2.2.1, h.2.2.2.2.2⟩

-- ===================== string replacement lemmas =====================

theorem beqSymmFalse (a b : Char) (h : (a == b) = false) : (b == a) = false := by
  rw [beq_eq_false_iff_ne] at h ⊢
  exact fun e => h e.symm

theorem beginsWithSelfAppend (a s : List Char) : beginsWith a (a ++ s) = true := by
  induction a with
  | nil => rfl
  | cons x xs ih => simp [beginsWith, ih]

theorem beginsWithAppendFalse (a b : List Char) (s : List Char)
    (hab : beginsWith a b = false) (hba : beginsWith b a = false) :
    beginsWith a (b ++ s) = false := by
  induction a generalizing b with
  | nil => simp [beginsWith] at hab
  | cons x xs ih =>
    cases b with
    | nil => simp [beginsWith] at hba
    | cons y ys =>
      simp only [List.cons_append, beginsWith] at hab ⊢
      cases hxy : (x == y) with
      | false => simp [hxy]
      | true =>
        have hyx : (y == x) = true := by
          rw [beq_iff_eq] at hxy ⊢
          exact hxy.symm
        simp only [hxy, Bool.true_and] at hab ⊢
        simp only [beginsWith, hyx, Bool.true_and] at hba
        exact ih ys hab hba

theorem occursAppendSkip (pat b s : List Char)
    (h : ∀ i, i < b.length → ∀ t, beginsWith pat (b.drop i ++ t) = false) :
    occursList pat (b ++ s) = occursList pat s := by
  induction b with
  | nil => rfl
  | cons c b ih =>
    have h0 : beginsWith pat (c :: (b ++ s)) = false := by
      have := h 0 (by simp) s
      simpa using this
    show occursList pat (c :: (b ++ s)) = occursList pat s
    rw [occursList, h0, Bool.false_or]
    exact ih (fun i hi t => by
      have := h (i + 1) (by simpa using Nat.succ_lt_succ hi) t
      simpa using this)

theorem notBraceHead (c : Char) (h : (!(c == lbrace)) = true) :
    (lbrace == c) = false := by
  apply beqSymmFalse
  cases hx : (c == lbrace)
  · rfl
  · rw [hx] at h
    exact absurd h (by decide)

theorem nmwOfBraceFree (pt b : List Char) (hb : braceFreeL b = true) :
    ∀ i, i < b.length → ∀ t, beginsWith (lbrace :: pt) (b.drop i ++ t) = false := by
  induction b with
  | nil =>
    intro i hi
    simp at hi
  | cons c b ih =>
    intro i hi t
    simp only [braceFreeL, List.all_cons, Bool.and_eq_true] at hb
    cases i with
    | zero =>
      have hc : (lbrace == c) = false := notBraceHead c hb.1.1
      show beginsWith (lbrace :: pt) (c :: (b ++ t)) = false
      rw [beginsWith, hc, Bool.false_and]
    | succ i =>
      simp only [List.drop_succ_cons]
      exact ih hb.2 i (by simpa using Nat.lt_of_succ_lt_succ hi) t

theorem occursBraceFree (pt s : List Char) (hs : braceFreeL s = true) :
    occursList (lbrace :: pt) s = false := by
  induction s with
  | nil => rfl
  | cons c s ih =>
    simp only [braceFreeL, List.all_cons, Bool.and_eq_true] at hs
    have hc : (lbrace == c) = false := notBraceHead c hs.1.1
    rw [occursList, beginsWith, hc, Bool.false_and, Bool.false_or]
    exact ih hs.2

theorem replaceAllFNoOccur (pat repl s : List Char) (h : occursList pat s = false) :
    ∀ fuel, s.length ≤ fuel → replaceAllF pat repl fuel s = s := by
  induction s with
  | nil =>
    intro fuel _
    cases fuel <;> rfl
  | cons c s ih =>
    intro fuel hf
    cases fuel with
    | zero => simp at hf
    | succ f =>
      simp only [occursList, Bool.or_eq_false_iff] at h
      simp only [replaceAllF, h.1, Bool.and_false, Bool.false_eq_true, if_false]
      rw [ih h.2 f (Nat.le_of_succ_le_succ hf)]

theorem replaceAllFWalk (pat repl b s : List Char)
    (h : ∀ i, i < b.length → ∀ t, beginsWith pat (b.drop i ++ t) = false) :
    ∀ fuel, b.length ≤ fuel →
      replaceAllF pat repl fuel (b ++ s) = b ++ replaceAllF pat repl (fuel - b.length) s := by
  induction b with
  | nil =>
    intro fuel _
    simp
  | cons c b ih =>
    intro fuel hf
    cases fuel with
    | zero => simp at hf
    | succ f =>
      have h0 : beginsWith pat (c :: (b ++ s)) = false := by
        have := h 0 (by simp) s
        simpa using this
      show replaceAllF pat repl (f + 1) (c :: (b ++ s))
        = (c :: b) ++ replaceAllF pat repl (f + 1 - (c :: b).length) s
      rw [replaceAllF, h0, Bool.and_false]
      simp only [Bool.false_eq_true, if_false]
      rw [ih (fun i hi t => by
          have := h (i + 1) (by simpa using Nat.succ_lt_succ hi) t
          simpa using this) f (Nat.le_of_succ_le_succ hf)]
      simp [Nat.succ_sub_succ]

theorem replaceAllFMatch (p : Char) (pt repl s : List Char) (fuel : Nat) :
    replaceAllF (p :: pt) repl (fuel + 1) ((p :: pt) ++ s)
      = repl ++ replaceAllF (p :: pt) repl fuel s := by
  have hb : beginsWith (p :: pt) (p :: (pt ++ s)) = true := beginsWithSelfAppend (p :: pt) s
  show replaceAllF (p :: pt) repl (fuel + 1) (p :: (pt ++ s))
    = repl ++ replaceAllF (p :: pt) repl fuel s
  rw [replaceAllF, hb]
  simp [List.drop_left]

theorem replaceAllFOcc (pt repl pre rest : List Char) (hpre : braceFreeL pre = true) :
    ∀ fuel, (pre ++ (lbrace :: pt) ++ rest).length ≤ fuel →
      replaceAllF (lbrace :: pt) repl fuel (pre ++ (lbrace :: pt) ++ rest)
        = pre ++ repl ++ replaceAllF (lbrace :: pt) repl (fuel - pre.length - 1) rest := by
  intro fuel hf
  simp only [List.length_append, List.length_cons] at hf
  have hfp : pre.length ≤ fuel := by omega
  obtain ⟨k, hk⟩ : ∃ k, fuel - pre.length = k + 1 := ⟨fuel - pre.length - 1, by omega⟩
  rw [List.append_assoc]
  calc replaceAllF (lbrace :: pt) repl fuel (pre ++ ((lbrace :: pt) ++ rest))
      = pre ++ replaceAllF (lbrace :: pt) repl (fuel - pre.length) ((lbrace :: pt) ++ rest) :=
        replaceAllFWalk (lbrace :: pt) repl pre ((lbrace :: pt) ++ rest)
          (nmwOfBraceFree pt pre hpre) fuel hfp
    _ = pre ++ replaceAllF (lbrace :: pt) repl (k + 1) ((lbrace :: pt) ++ rest) := by rw [hk]
    _ = pre ++ (repl ++ replaceAllF (lbrace :: pt) repl k rest) := by
        rw [replaceAllFMatch lbrace pt repl rest k]
    _ = pre ++ repl ++ replaceAllF (lbrace :: pt) repl (fuel - pre.length - 1) rest := by
        rw [show k = fuel - pre.length - 1 from by omega, List.append_assoc]

-- ===================== pyReplace-level lemmas =====================

theorem pyReplaceNoOccur (s pat repl : String) (h : occursList pat.data s.data = false) :
    pyReplace s pat repl = s := by
  unfold pyReplace
  rw [replaceAllFNoOccur pat.data repl.data s.data h s.data.length (Nat.le_refl _), stringMkData]

theorem pyReplacePh (tok d : String) (pre post : List Char)
    (hpre : braceFreeL pre = true) (hpost : braceFreeL post = true) :
    pyReplace ⟨pre ++ placeholderL tok ++ post⟩ (placeholderStr tok) d
      = ⟨pre ++ d.data ++ post⟩ := by
  show String.mk (replaceAllF (lbrace :: (lbrace :: (tok.data ++ [rbrace, rbrace]))) d.data
      (pre ++ (lbrace :: (lbrace :: (tok.data ++ [rbrace, rbrace]))) ++ post).length
      (pre ++ (lbrace :: (lbrace :: (tok.data ++ [rbrace, rbrace]))) ++ post))
    = String.mk (pre ++ d.data ++ post)
  have hlen : post.length
      ≤ (pre ++ (lbrace :: (lbrace :: (tok.data ++ [rbrace, rbrace]))) ++ post).length
        - pre.length - 1 := by
    simp only [List.length_append, List.length_cons]
    omega
  rw [replaceAllFOcc (lbrace :: (tok.data ++ [rbrace, rbrace])) d.data pre post hpre
    ((pre ++ (lbrace :: (lbrace :: (tok.data ++ [rbrace, rbrace]))) ++ post).length)
    (Nat.le_refl _)]
  rw [replaceAllFNoOccur (lbrace :: (lbrace :: (tok.data ++ [rbrace, rbrace]))) d.data post
    (occursBraceFree (lbrace :: (tok.data ++ [rbrace, rbrace])) post hpost) _ hlen]

theorem braceFreeAppend3 (a b c : List Char) (ha : braceFreeL a = true)
    (hb : braceFreeL b = true) (hc : braceFreeL c = true) :
    braceFreeL (a ++ b ++ c) = true := by
  simp only [braceFreeL, List.all_append, Bool.and_eq_true]
  exact ⟨⟨ha, hb⟩, hc⟩

theorem occursCross (qt tokL pre post : List Char)
    (hpre : braceFreeL pre = true) (hpost : braceFreeL post = true)
    (hnm : ∀ i, i < tokL.length → ∀ t, beginsWith (lbrace :: qt) (tokL.drop i ++ t) = false) :
    occursList (lbrace :: qt) (pre ++ tokL ++ post) = false := by
  rw [List.append_assoc, occursAppendSkip _ _ _ (nmwOfBraceFree qt pre hpre),
    occursAppendSkip _ _ _ hnm]
  exact occursBraceFree qt post hpost

theorem nmwPairChecks (pat b : List Char) (n : Nat) (hn : b.length = n)
    (hall : ∀ i, i < n → beginsWith pat (b.drop i) = false ∧ beginsWith (b.drop i) pat = false) :
    ∀ i, i < b.length → ∀ t, beginsWith pat (b.drop i ++ t) = false := by
  intro i hi t
  rw [hn] at hi
  exact beginsWithAppendFalse pat (b.drop i) t (hall i hi).1 (hall i hi).2

theorem nmwDeviceOverData :
    ∀ i, i < (placeholderL "data").length → ∀ t,
      beginsWith (placeholderL "device_data") ((placeholderL "data").drop i ++ t) = false :=
  nmwPairChecks _ _ 8 (by decide) (by
    intro i hi
    interval_cases i <;> exact ⟨by decide, by decide⟩)

theorem nmwDeviceOverMcp :
    ∀ i, i < (placeholderL "mcp_data").length → ∀ t,
      beginsWith (placeholderL "device_data") ((placeholderL "mcp_data").drop i ++ t) = false :=
  nmwPairChecks _ _ 12 (by decide) (by
    intro i hi
    interval_cases i <;> exact ⟨by decide, by decide⟩)

theorem nmwDataOverMcp :
    ∀ i, i < (placeholderL "mcp_data").length → ∀ t,
      beginsWith (placeholderL "data") ((placeholderL "mcp_data").drop i ++ t) = false :=
  nmwPairChecks _ _ 12 (by decide) (by
    intro i hi
    interval_cases i <;> exact ⟨by decide, by decide⟩)

theorem nmwDeviceOverResult :
    ∀ i, i < (placeholderL "result").length → ∀ t,
      beginsWith (placeholderL "device_data") ((placeholderL "result").drop i ++ t) = false :=
  nmwPairChecks _ _ 10 (by decide) (by
    intro i hi
    interval_cases i <;> exact ⟨by decide, by decide⟩)

theorem nmwDataOverResult :
    ∀ i, i < (placeholderL "result").length → ∀ t,
      beginsWith (placeholderL "data") ((placeholderL "result").drop i ++ t) = false :=
  nmwPairChecks _ _ 10 (by decide) (by
    intro i hi
    interval_cases i <;> exact ⟨by decide, by decide⟩)

theorem nmwMcpOverResult :
    ∀ i, i < (placeholderL "result").length → ∀ t,
      beginsWith (placeholderL "mcp_data") ((placeholderL "result").drop i ++ t) = false :=
  nmwPairChecks _ _ 10 (by decide) (by
    intro i hi
    interval_cases i <;> exact ⟨by decide, by decide⟩)

-- ===================== claim theorems: template engine =====================

theorem toolsLoopNone (lines : List String) :
    ∀ acc, (∃ l ∈ lines, isNoneIndicator (pyLowerStr (pyStripStr l)) = true) →
      toolsLoop acc lines = [] := by
  induction lines with
  | nil =>
    intro acc h
    rcases h with ⟨l, hl, _⟩
    exact absurd hl (List.not_mem_nil l)
  | cons a rest ih =>
    intro acc h
    by_cases ha : isNoneIndicator (pyLowerStr (pyStripStr a)) = true
    · show (if isNoneIndicator (pyLowerStr (pyStripStr a)) then ([] : List String)
        else match parseToolLine (pyLowerStr (pyStripStr a)).data with
          | some t => toolsLoop (acc ++ [t]) rest
          | none => toolsLoop acc rest) = []
      rw [ha]
      simp
    · have hie : isNoneIndicator (pyLowerStr (pyStripStr a)) = false := by
        cases hb : isNoneIndicator (pyLowerStr (pyStripStr a))
        · rfl
        · exact absurd hb ha
      rcases h with ⟨l, hl, hi⟩
      have hlr : l ∈ rest := by
        rcases List.mem_cons.mp hl with rfl | hr
        · exact absurd hi ha
        · exact hr
      show (if isNoneIndicator (pyLowerStr (pyStripStr a)) then ([] : List String)
        else match parseToolLine (pyLowerStr (pyStripStr a)).data with
          | some t => toolsLoop (acc ++ [t]) rest
          | none => toolsLoop acc rest) = []
      rw [hie]
      simp only [Bool.false_eq_true, if_false]
      cases hp : parseToolLine (pyLowerStr (pyStripStr a)).data with
      | some t =>
        simp only [hp]
        exact ih (acc ++ [t]) ⟨l, hlr, hi⟩
      | none =>
        simp only [hp]
        exact ih acc ⟨l, hlr, hi⟩

/-- Claim C4: a Tools section containing on any line (after stripping and
    lowering) one of the none-indicator tokens yields an empty declared tool
    list, in both extract_tools and parse_content, regardless of tool
    identifier lines before or after that line. -/
theorem claim_C4 (template s : String)
    (hs : extractSection template "Tools" = some s)
    (hind : ∃ l ∈ splitLinesStr s, isNoneIndicator (pyLowerStr (pyStripStr l)) = true) :
    extract_tools template = [] ∧ (parse_content template).tools = [] := by
  have hmain : (match extractSection template "Tools" with
      | none => ([] : List String)
      | some sec => if sec = "" then [] else toolsLoop [] (splitLinesStr sec)) = [] := by
    rw [hs]
    by_cases he : s = ""
    · simp [he]
    · simp only [if_neg he]
      exact toolsLoopNone (splitLinesStr s) [] hind
  exact ⟨hmain, hmain⟩

/-- Witness for claim C4 at a concrete template whose Tools section lists a
    tool, then "none", then another tool. -/
theorem claim_C4_witness :
    extract_tools toolsNoneTemplate = [] ∧ (parse_content toolsNoneTemplate).tools = [] :=
  claim_C4 toolsNoneTemplate "- armis-mcp\nnone\n- other" (by decide)
    ⟨"none", by decide, by decide⟩

/-- Claim C5 counterexample: substitution is sequential, so the map
    (a maps-to the placeholder of b, b maps-to X) applied to a template that
    is just the placeholder of a gives X in one key order and the literal
    placeholder of b in the other: the substituted value is rescanned by the
    later replacement and the result depends on the order of the keys. -/
theorem claim_C5_counterexample :
    substituteVars (placeholderStr "a") [("a", placeholderStr "b"), ("b", "X")] = "X"
    ∧ substituteVars (placeholderStr "a") [("b", "X"), ("a", placeholderStr "b")]
        = placeholderStr "b"
    ∧ placeholderStr "b" ≠ "X" := by
  refine ⟨by decide, by decide, by decide⟩

/-- Claim C5 as amended: substitution is a literal sequential replacement in
    map order; for a variable whose placeholder occurs once between
    brace-free surroundings and whose value is brace-free, the substitution
    replaces exactly that occurrence and the placeholder no longer occurs;
    a key whose placeholder does not occur leaves the template unchanged
    (so unknown placeholders are left verbatim, without error). -/
theorem claim_C5_amended (k v : String) (pre post : List Char)
    (hpre : braceFreeL pre = true) (hpost : braceFreeL post = true)
    (hv : braceFreeL v.data = true) :
    substituteVars ⟨pre ++ placeholderL k ++ post⟩ [(k, v)] = ⟨pre ++ v.data ++ post⟩
    ∧ occursList (placeholderL k) (pre ++ v.data ++ post) = false
    ∧ (∀ (t k' v' : String), occursList (placeholderL k') t.data = false →
        substituteVars t [(k', v')] = t) := by
  refine ⟨?_, ?_, ?_⟩
  · show pyReplace ⟨pre ++ placeholderL k ++ post⟩ (placeholderStr k) v = ⟨pre ++ v.data ++ post⟩
    exact pyReplacePh k v pre post hpre hpost
  · show occursList (lbrace :: (lbrace :: (k.data ++ [rbrace, rbrace])))
      (pre ++ v.data ++ post) = false
    exact occursBraceFree _ _ (braceFreeAppend3 pre v.data post hpre hv hpost)
  · intro t k' v' h
    show pyReplace t (placeholderStr k') v' = t
    exact pyReplaceNoOccur t (placeholderStr k') v' h

/-- Witness for the amended claim C5 at a concrete template and value. -/
theorem claim_C5_amended_witness :
    substituteVars ⟨"find ".data ++ placeholderL "mac" ++ " now".data⟩ [("mac", "AA:BB")]
        = ⟨"find ".data ++ "AA:BB".data ++ " now".data⟩
    ∧ occursList (placeholderL "mac") ("find ".data ++ "AA:BB".data ++ " now".data) = false
    ∧ (∀ (t k' v' : String), occursList (placeholderL k') t.data = false →
        substituteVars t [(k', v')] = t) :=
  claim_C5_amended "mac" "AA:BB" "find ".data " now".data (by decide) (by decide) (by decide)

/-- Claim C6: the deterministic-flow data substitution replaces each of the
    four legacy placeholder tokens with the fetched text: the concrete
    scenario template parsed with mac = AA:BB yields the deterministic query
    "find AA:BB" and, after substituting the fetched text "no risk",
    analysis text "Summarize: no risk"; a text holding all four tokens (one
    twice) has every occurrence replaced; and in general a single occurrence
    of any of the four tokens between brace-free surroundings is replaced by
    the (brace-free) fetched text. -/
theorem claim_C6 :
    ((parse_prompt scenarioTemplate [("mac", "AA:BB")]).mcp_query = some "find AA:BB"
      ∧ substituteDataPlaceholders
          (parse_prompt scenarioTemplate [("mac", "AA:BB")]).analysis_prompt "no risk"
          = "Summarize: no risk")
    ∧ substituteDataPlaceholders multiPlaceholderText "X" = "A X B X C X D X E X"
    ∧ (∀ (tok : String) (pre post : List Char) (d : String),
        tok ∈ legacyPlaceholders →
        braceFreeL pre = true → braceFreeL post = true → braceFreeL d.data = true →
        substituteDataPlaceholders ⟨pre ++ placeholderL tok ++ post⟩ d
          = ⟨pre ++ d.data ++ post⟩) := by
  refine ⟨⟨by decide, by decide⟩, by decide, ?_⟩
  intro tok pre post d htok hpre hpost hd
  have hbf := braceFreeAppend3 pre d.data post hpre hd hpost
  simp only [legacyPlaceholders, List.mem_cons, List.not_mem_nil, or_false] at htok
  rcases htok with rfl | rfl | rfl | rfl
  · show pyReplace (pyReplace (pyReplace (pyReplace
        ⟨pre ++ placeholderL "device_data" ++ post⟩ (placeholderStr "device_data") d)
        (placeholderStr "data") d) (placeholderStr "mcp_data") d) (placeholderStr "result") d
      = ⟨pre ++ d.data ++ post⟩
    rw [pyReplacePh "device_data" d pre post hpre hpost,
      pyReplaceNoOccur ⟨pre ++ d.data ++ post⟩ (placeholderStr "data") d
        (occursBraceFree (lbrace :: ("data".data ++ [rbrace, rbrace])) _ hbf),
      pyReplaceNoOccur ⟨pre ++ d.data ++ post⟩ (placeholderStr "mcp_data") d
        (occursBraceFree (lbrace :: ("mcp_data".data ++ [rbrace, rbrace])) _ hbf),
      pyReplaceNoOccur ⟨pre ++ d.data ++ post⟩ (placeholderStr "result") d
        (occursBraceFree (lbrace :: ("result".data ++ [rbrace, rbrace])) _ hbf)]
  · show pyReplace (pyReplace (pyReplace (pyReplace
        ⟨pre ++ placeholderL "data" ++ post⟩ (placeholderStr "device_data") d)
        (placeholderStr "data") d) (placeholderStr "mcp_data") d) (placeholderStr "result") d
      = ⟨pre ++ d.data ++ post⟩
    rw [pyReplaceNoOccur ⟨pre ++ placeholderL "data" ++ post⟩ (placeholderStr "device_data") d
        (occursCross (lbrace :: ("device_data".data ++ [rbrace, rbrace]))
          (placeholderL "data") pre post hpre hpost nmwDeviceOverData),
      pyReplacePh "data" d pre post hpre hpost,
      pyReplaceNoOccur ⟨pre ++ d.data ++ post⟩ (placeholderStr "mcp_data") d
        (occursBraceFree (lbrace :: ("mcp_data".data ++ [rbrace, rbrace])) _ hbf),
      pyReplaceNoOccur ⟨pre ++ d.data ++ post⟩ (placeholderStr "result") d
        (occursBraceFree (lbrace :: ("result".data ++ [rbrace, rbrace])) _ hbf)]
  · show pyReplace (pyReplace (pyReplace (pyReplace
        ⟨pre ++ placeholderL "mcp_data" ++ post⟩ (placeholderStr "device_data") d)
        (placeholderStr "data") d) (placeholderStr "mcp_data") d) (placeholderStr "result") d
      = ⟨pre ++ d.data ++ post⟩
    rw [pyReplaceNoOccur ⟨pre ++ placeholderL "mcp_data" ++ post⟩ (placeholderStr "device_data") d
        (occursCross (lbrace :: ("device_data".data ++ [rbrace, rbrace]))
          (placeholderL "mcp_data") pre post hpre hpost nmwDeviceOverMcp),
      pyReplaceNoOccur ⟨pre ++ placeholderL "mcp_data" ++ post⟩ (placeholderStr "data") d
        (occursCross (lbrace :: ("data".data ++ [rbrace, rbrace]))
          (placeholderL "mcp_data") pre post hpre hpost nmwDataOverMcp),
      pyReplacePh "mcp_data" d pre post hpre hpost,
      pyReplaceNoOccur ⟨pre ++ d.data ++ post⟩ (placeholderStr "result") d
        (occursBraceFree (lbrace :: ("result".data ++ [rbrace, rbrace])) _ hbf)]
  · show pyReplace (pyReplace (pyReplace (pyReplace
        ⟨pre ++ placeholderL "result" ++ post⟩ (placeholderStr "device_data") d)
        (placeholderStr "data") d) (placeholderStr "mcp_data") d) (placeholderStr "result") d
      = ⟨pre ++ d.data ++ post⟩
    rw [pyReplaceNoOccur ⟨pre ++ placeholderL "result" ++ post⟩ (placeholderStr "device_data") d
        (occursCross (lbrace :: ("device_data".data ++ [rbrace, rbrace]))
          (placeholderL "result") pre post hpre hpost nmwDeviceOverResult),
      pyReplaceNoOccur ⟨pre ++ placeholderL "result" ++ post⟩ (placeholderStr "data") d
        (occursCross (lbrace :: ("data".data ++ [rbrace, rbrace]))
          (placeholderL "result") pre post hpre hpost nmwDataOverResult),
      pyReplaceNoOccur ⟨pre ++ placeholderL "result" ++ post⟩ (placeholderStr "mcp_data") d
        (occursCross (lbrace :: ("mcp_data".data ++ [rbrace, rbrace]))
          (placeholderL "result") pre post hpre hpost nmwMcpOverResult),
      pyReplacePh "result" d pre post hpre hpost]

/-- Witness for claim C6 at a concrete analysis text and fetched data. -/
theorem claim_C6_witness :
    substituteDataPlaceholders ⟨"Summarize: ".data ++ placeholderL "data" ++ " end".data⟩ "no risk"
      = ⟨"Summarize: ".data ++ "no risk".data ++ " end".data⟩ :=
  claim_C6.2.2 "data" "Summarize: ".data " end".data "no risk" (by decide) (by decide)
    (by decide) (by decide)

theorem noHeaderNone (name : String) (lines : List String)
    (h : lines.dropLast.any (fun l => headerLineMatches name l) = false) :
    sectionLinesAfter name lines = none := by
  induction lines with
  | nil => rfl
  | cons a rest ih =>
    cases rest with
    | nil => rfl
    | cons b bs =>
      have hd : (a :: b :: bs).dropLast = a :: (b :: bs).dropLast := rfl
      rw [hd, List.any_cons, Bool.or_eq_false_iff] at h
      show (if headerLineMatches name a then some (b :: bs)
        else sectionLinesAfter name (b :: bs)) = none
      rw [h.1]
      simp only [Bool.false_eq_true, if_false]
      exact ih h.2

/-- Claim C9 counterexample: the empty template body has no MCP Query
    section header and parses to a null deterministic query, but its
    analysis text is the empty string, not a non-empty one. -/
theorem claim_C9_counterexample :
    hasSecHeader "MCP Query" (substituteVars "" []) = false
    ∧ (parse_prompt "" []).mcp_query = none
    ∧ (parse_prompt "" []).analysis_prompt = "" := by
  refine ⟨by decide, by decide, by decide⟩

/-- Claim C9 as amended: a substituted body without an MCP Query section
    header parses to a null deterministic query; when it also has no
    Analysis Prompt header, the analysis text is the whole substituted body,
    hence non-empty exactly when the substituted body is non-empty. -/
theorem claim_C9_amended (template : String) (vars : List (String × String))
    (hq : hasSecHeader "MCP Query" (substituteVars template vars) = false) :
    (parse_prompt template vars).mcp_query = none
    ∧ (hasSecHeader "Analysis Prompt" (substituteVars template vars) = false →
        (parse_prompt template vars).analysis_prompt = substituteVars template vars)
    ∧ (hasSecHeader "Analysis Prompt" (substituteVars template vars) = false →
        substituteVars template vars ≠ "" →
        (parse_prompt template vars).analysis_prompt ≠ "") := by
  have h1 : sectionLinesAfter "MCP Query" (splitLinesStr (substituteVars template vars)) = none :=
    noHeaderNone _ _ hq
  have hmq : (parse_prompt template vars).mcp_query = none := by
    show (sectionLinesAfter "MCP Query" (splitLinesStr (substituteVars template vars))).map
      (fun rest => pyStripStr ⟨takeGroupL (groupText rest).data⟩) = none
    rw [h1]
    rfl
  have hana : hasSecHeader "Analysis Prompt" (substituteVars template vars) = false →
      (parse_prompt template vars).analysis_prompt = substituteVars template vars := by
    intro ha
    have h2 := noHeaderNone "Analysis Prompt" (splitLinesStr (substituteVars template vars)) ha
    have h3 : analysisFrom (substituteVars template vars) = none := by
      show (sectionLinesAfter "Analysis Prompt" (splitLinesStr (substituteVars template vars))).map
        (fun rest => pyStripStr (groupText rest)) = none
      rw [h2]
      rfl
    show (match analysisFrom (substituteVars template vars) with
          | some a => a
          | none => substituteVars template vars) = substituteVars template vars
    rw [h3]
  refine ⟨hmq, hana, fun ha hne => ?_⟩
  rw [hana ha]
  exact hne

/-- Witness for the amended claim C9 at a concrete header-free template. -/
theorem claim_C9_amended_witness :
    (parse_prompt "hello world" []).mcp_query = none
    ∧ (hasSecHeader "Analysis Prompt" (substituteVars "hello world" []) = false →
        (parse_prompt "hello world" []).analysis_prompt = substituteVars "hello world" [])
    ∧ (hasSecHeader "Analysis Prompt" (substituteVars "hello world" []) = false →
        substituteVars "hello world" [] ≠ "" →
        (parse_prompt "hello world" []).analysis_prompt ≠ "") :=
  claim_C9_amended "hello world" [] (by decide)
